import Mathlib

/-!
Verification of the coordination core of the lochness repository.

The development shallowly embeds the relevant Go code:

* `Nconfigd` — the debounced ansible-trigger daemon (`cmd/nconfigd/main.go`):
  the tag-selection logic of `runAnsible`/`getTags` and the two-timer
  debounced batching loop of `consumeResponses`.
* `Locker` — the lock-guarded job runner embedded in the same source file:
  its TTL defaulting and its exit behaviour on acquisition failure.
* `Graceful` — the capacity-one `ready` channel handoff shared by the
  daemons' consumer loops and signal handlers, as a transition system.
* `Dobharchu` — the DHCP-config daemon (`cmd/dobharchu/main.go`): its
  watch-loop body and the placement of its signal registration.

Go maps are embedded as association lists (one fixed iteration order),
Go `uint64` as `Nat` with explicit `% 2^64` where overflow matters, and
channels of capacity one as a `Nat`-valued token count.
-/

namespace Nconfigd

/-- Tags is a list of ansible tags (`type Tags []string`). -/
def Tags := List String

/-- Config maps watched kv prefixes to ansible tags
(`type Config map[string]Tags`), embedded as an association list whose
order stands for one iteration order of the Go map. -/
def Config := List (String × List String)

/-- hasPre is Go's strings.HasPrefix, embedded on the character data of
the two strings. -/
def hasPre (pre key : String) : Bool :=
  pre.data.isPrefixOf key.data

/-- getTags returns the ansible tags associated with a key: first an exact
match of the key, otherwise the tags of the first registered entry that is
a string prefix of the key, otherwise nil (main.go lines 62-77). -/
def getTags (config : Config) (key : String) : List String :=
  match config.find? (fun p => p.1 == key) with
  | some p => p.2
  | none =>
    match config.find? (fun p => hasPre p.1 key) with
    | some p => p.2
    | none => []

/-- collectTags is the tag-accumulation loop of runAnsible (main.go lines
81-91): keys are scanned in order; a key whose tags are empty clears the
whole set and breaks out (`none`); otherwise each key's tags join the
accumulated collection. -/
def collectTags (config : Config) : List String → Option (List String)
  | [] => some []
  | k :: ks =>
    let tags := getTags config k
    if tags.isEmpty then none
    else
      match collectTags config ks with
      | none => none
      | some rest => some (tags ++ rest)

/-- keyTags is the sorted deduplicated tag list runAnsible derives from its
keys (main.go lines 81-96): the accumulated set (empty when any key had no
tags), deduplicated by the Go map and sorted by `sort.Strings`. -/
def keyTags (config : Config) (keys : List String) : List String :=
  match collectTags config keys with
  | none => []
  | some ts => List.insertionSort (fun a b => a ≤ b) ts.dedup

/-- ansibleArgs is the argument list runAnsible passes to the ansible run
command (main.go lines 98-102): `--kv <addr>` followed by `-t <tag>` for
each selected tag. -/
def ansibleArgs (config : Config) (kvaddr : String) (keys : List String) :
    List String :=
  ["--kv", kvaddr] ++ (keyTags config keys).flatMap (fun t => ["-t", t])

theorem collectTags_none_iff (config : Config) (keys : List String) :
    collectTags config keys = none ↔ ∃ k ∈ keys, getTags config k = [] := by
  induction keys with
  | nil => simp [collectTags]
  | cons k ks ih =>
    simp only [collectTags]
    by_cases h : (getTags config k).isEmpty
    · simp only [h, if_pos rfl]
      constructor
      · intro _
        exact ⟨k, by simp, List.isEmpty_iff.mp h⟩
      · intro _; rfl
    · simp only [h]
      rw [if_neg (by simp [h])]
      cases hc : collectTags config ks with
      | none =>
        simp only [true_iff]
        obtain ⟨k', hk', hk'e⟩ := ih.mp hc
        exact ⟨k', by simp [hk'], hk'e⟩
      | some rest =>
        simp only [reduceCtorEq, false_iff]
        rintro ⟨k', hk', hk'e⟩
        rcases List.mem_cons.mp hk' with h1 | h2
        · subst h1
          exact h (by simp [hk'e, List.isEmpty_iff])
        · exact (by simp [hc] : collectTags config ks ≠ none)
            (ih.mpr ⟨k', h2, hk'e⟩)

theorem collectTags_mem (config : Config) (keys : List String)
    (ts : List String) (h : collectTags config keys = some ts) :
    ∀ t, t ∈ ts ↔ ∃ k ∈ keys, t ∈ getTags config k := by
  induction keys generalizing ts with
  | nil =>
    simp only [collectTags, Option.some.injEq] at h
    subst h; simp
  | cons k ks ih =>
    simp only [collectTags] at h
    by_cases he : (getTags config k).isEmpty
    · simp [he] at h
    · rw [if_neg (by simp [he])] at h
      cases hc : collectTags config ks with
      | none => rw [hc] at h; exact absurd h (by simp)
      | some rest =>
        rw [hc] at h
        simp only [Option.some.injEq] at h
        subst h
        intro t
        simp only [List.mem_append, ih rest hc t, List.mem_cons]
        constructor
        · rintro (h1 | ⟨k', hk', ht⟩)
          · exact ⟨k, Or.inl rfl, h1⟩
          · exact ⟨k', Or.inr hk', ht⟩
        · rintro ⟨k', h1 | h2, ht⟩
          · subst h1; exact Or.inl ht
          · exact Or.inr ⟨k', h2, ht⟩

namespace Claims

/-- C9: in runAnsible, if any supplied key has no tags in the config
(getTags empty), the accumulated tag set is discarded and ansible is
invoked with no `-t` arguments (a full playbook run); otherwise the `-t`
arguments carry exactly the deduplicated, lexicographically sorted union
of the tags of all supplied keys. -/
theorem runAnsible_tag_selection (config : Config) (kvaddr : String)
    (keys : List String) :
    ((∃ k ∈ keys, getTags config k = []) →
      keyTags config keys = [] ∧
      ansibleArgs config kvaddr keys = ["--kv", kvaddr]) ∧
    ((∀ k ∈ keys, getTags config k ≠ []) →
      (keyTags config keys).Sorted (fun a b => a ≤ b) ∧
      (keyTags config keys).Nodup ∧
      (∀ t, t ∈ keyTags config keys ↔ ∃ k ∈ keys, t ∈ getTags config k) ∧
      ansibleArgs config kvaddr keys =
        ["--kv", kvaddr] ++
          (keyTags config keys).flatMap (fun t => ["-t", t])) := by
  constructor
  · intro hex
    have h0 : collectTags config keys = none :=
      (collectTags_none_iff config keys).mpr hex
    have h1 : keyTags config keys = [] := by simp [keyTags, h0]
    exact ⟨h1, by simp [ansibleArgs, h1]⟩
  · intro hall
    cases hc : collectTags config keys with
    | none =>
      obtain ⟨k, hk, he⟩ := (collectTags_none_iff config keys).mp hc
      exact absurd he (hall k hk)
    | some ts =>
      have hperm := List.perm_insertionSort (fun a b : String => a ≤ b) ts.dedup
      have hkt : keyTags config keys =
          List.insertionSort (fun a b => a ≤ b) ts.dedup := by
        simp [keyTags, hc]
      refine ⟨?_, ?_, ?_, rfl⟩
      · rw [hkt]; exact List.sorted_insertionSort _ _
      · rw [hkt]; exact hperm.nodup_iff.mpr (List.nodup_dedup ts)
      · intro t
        rw [hkt, hperm.mem_iff, List.mem_dedup]
        exact collectTags_mem config keys ts hc t

/-- Witness for C9: both branches of the tag-selection theorem exercised
on concrete configs and key lists. -/
theorem runAnsible_tag_selection_witness :
    (keyTags [("/lochness/a", ["t2", "t1"]), ("/lochness/b", ["t1"])]
        ["/lochness/a/x", "/lochness/b"]).Sorted (fun a b => a ≤ b) ∧
    keyTags [("/lochness/a", ["t2", "t1"])] ["/other"] = [] := by
  constructor
  · exact ((runAnsible_tag_selection
      [("/lochness/a", ["t2", "t1"]), ("/lochness/b", ["t1"])] "addr"
      ["/lochness/a/x", "/lochness/b"]).2 (by decide)).1
  · exact ((runAnsible_tag_selection
      [("/lochness/a", ["t2", "t1"])] "addr"
      ["/other"]).1 (by decide)).1

end Claims

end Nconfigd

namespace Locker

/-- two64 is the modulus of Go's uint64 arithmetic. -/
def two64 : Nat := 2 ^ 64

/-- defaultInterval is the default of locker's `interval` flag: 30 seconds. -/
def defaultInterval : Nat := 30

/-- defaultTTL is the default of locker's `ttl` flag: 0, meaning the TTL is
derived from the interval. -/
def defaultTTL : Nat := 0

/-- effectiveTTL embeds the TTL defaulting of locker's main
(`if params.TTL == 0 { params.TTL = params.Interval * 2 }`), with uint64
multiplication embedded as Nat multiplication mod 2^64. -/
def effectiveTTL (ttl interval : Nat) : Nat :=
  if ttl == 0 then interval * 2 % two64 else ttl

/-- LockError distinguishes why Acquire failed. Modelled from the spec:
`pkg/lock` is not under src/; spec 4.2 names the non-blocking failure
`AlreadyHeld`. -/
inductive LockError
  | alreadyHeld
  deriving DecidableEq, Repr

/-- acquire models lock.Acquire's result. Modelled from the spec:
`pkg/lock` is not under src/; spec 4.2: non-blocking acquisition "fails
immediately with AlreadyHeld if the key exists", blocking acquisition
retries until success (modelled as eventual success; cancellation is not
relevant to the claims). -/
def acquire (keyHeld blocking : Bool) : Except LockError Unit :=
  if keyHeld && !blocking then .error .alreadyHeld else .ok ()

/-- LockerOutcome records whether locker's main exits early (and with what
status) and whether the guarded command is ever started. -/
structure LockerOutcome where
  exitCode : Option Nat
  ranCommand : Bool
  deriving DecidableEq, Repr

/-- lockerMain embeds the acquisition handling of locker's main: on an
Acquire error, `log.Fatal` terminates the process with status 1 before the
guarded command is started; on success the command is run. -/
def lockerMain (keyHeld blocking : Bool) : LockerOutcome :=
  match acquire keyHeld blocking with
  | .error _ => ⟨some 1, false⟩
  | .ok _ => ⟨none, true⟩

namespace Claims

/-- C7: when blocking acquisition is not requested and the lock key is
already held, Acquire fails and the locker process exits immediately with
a nonzero status, never starting the guarded command. -/
theorem nonblocking_held_exits_nonzero (keyHeld blocking : Bool)
    (hheld : keyHeld = true) (hnb : blocking = false) :
    ∃ c, (lockerMain keyHeld blocking).exitCode = some c ∧ c ≠ 0 ∧
      (lockerMain keyHeld blocking).ranCommand = false := by
  subst hheld; subst hnb
  exact ⟨1, rfl, by decide, rfl⟩

/-- Witness for C7: the held, non-blocking case evaluated concretely. -/
theorem nonblocking_held_exits_nonzero_witness :
    ∃ c, (lockerMain true false).exitCode = some c ∧ c ≠ 0 ∧
      (lockerMain true false).ranCommand = false :=
  nonblocking_held_exits_nonzero true false rfl rfl

/-- C10: with the ttl option at its default 0, the effective TTL used for
lock acquisition is exactly twice the refresh interval, so the refresh
interval is half the TTL (within uint64 range). -/
theorem ttl_default_double_interval (interval : Nat)
    (h : 2 * interval < two64) :
    effectiveTTL defaultTTL interval = 2 * interval ∧
    effectiveTTL defaultTTL interval / 2 = interval := by
  have hmod : interval * 2 % two64 = 2 * interval := by
    rw [Nat.mul_comm]; exact Nat.mod_eq_of_lt h
  refine ⟨by simp [effectiveTTL, defaultTTL, hmod], ?_⟩
  simp only [effectiveTTL, defaultTTL, beq_self_eq_true, if_pos, hmod]
  exact Nat.mul_div_cancel_left interval (by norm_num)

/-- Witness for C10: the default interval of 30 seconds yields a TTL of 60
and a refresh interval of half the TTL. -/
theorem ttl_default_double_interval_witness :
    effectiveTTL defaultTTL defaultInterval = 2 * defaultInterval ∧
    effectiveTTL defaultTTL defaultInterval / 2 = defaultInterval :=
  ttl_default_double_interval defaultInterval (by decide)

end Claims

end Locker

namespace Nconfigd

/-- quietPeriodMs is the debounce quiet period used by consumeResponses:
the literal `100 * time.Millisecond` of `timer` (main.go lines 135, 143). -/
def quietPeriodMs : Nat := 100

/-- maxWaitMs is the debounce maximum wait used by consumeResponses: the
literal `1 * time.Second` of `max` (main.go lines 137, 146). -/
def maxWaitMs : Nat := 1000

/-- DState is the state of the consumeResponses select loop: the
accumulated key set (`keys`, an insertion-ordered duplicate-free list),
the absolute deadline of the quiet-period timer (`quiet`, `none` when the
timer is stopped) and of the max-wait timer (`maxw`, `none` exactly when
`maxStopped` is true in the Go code). -/
structure DState where
  keys : List String
  quiet : Option Nat
  maxw : Option Nat
  deriving DecidableEq, Repr

/-- emptyD is the loop state at entry and right after a fire: empty key
set, both timers stopped (main.go lines 134-139 and 151-159, 169). -/
def emptyD : DState := ⟨[], none, none⟩

/-- insertKey is `keys[k] = struct{}{}`: Go map insertion embedded as
append-if-absent on a duplicate-free list (main.go line 148). -/
def insertKey (k : String) (keys : List String) : List String :=
  if k ∈ keys then keys else keys ++ [k]

/-- ingest is the `case k := <-key` branch of the select loop at time `t`
(main.go lines 142-149): the quiet timer is reset to `t + 100ms`
unconditionally; the max timer is reset to `t + 1s` only when it was
stopped (the first event of a new batch); the key joins the set. -/
def ingest (s : DState) (t : Nat) (k : String) : DState :=
  { keys := insertKey k s.keys
    quiet := some (t + quietPeriodMs)
    maxw :=
      match s.maxw with
      | none => some (t + maxWaitMs)
      | some m => some m }

/-- deadline is the earliest armed timer deadline: the select loop fires a
batch when either timer's channel delivers, i.e. when the earlier of the
two armed deadlines elapses (main.go lines 150-158). -/
def deadline (s : DState) : Option Nat :=
  match s.quiet, s.maxw with
  | none, none => none
  | some q, none => some q
  | none, some m => some m
  | some q, some m => some (min q m)

/-- runTrace runs the consumeResponses select loop over a time-stamped
event trace and returns the list of batch fires (fire time and the key set
handed to runAnsible). Before each event, an armed deadline that has
already elapsed fires first; a fire hands off the accumulated set, clears
it and disarms both timers (the continuation restarts from `emptyD`), per
main.go lines 140-170. After the last event, a still-armed deadline fires
once more. The consumer action is modelled as instantaneous. -/
def runTrace : DState → List (Nat × String) → List (Nat × List String)
  | s, [] =>
    match deadline s with
    | none => []
    | some d => [(d, s.keys)]
  | s, (t, k) :: rest =>
    match deadline s with
    | some d =>
      if d ≤ t then (d, s.keys) :: runTrace (ingest emptyD t k) rest
      else runTrace (ingest s t k) rest
    | none => runTrace (ingest s t k) rest

/-- fires is the batch-fire sequence of the loop started in its initial
state, as consumeResponses starts it (main.go lines 134-139). -/
def fires (trace : List (Nat × String)) : List (Nat × List String) :=
  runTrace emptyD trace

theorem mem_insertKey (k x : String) (l : List String) :
    x ∈ insertKey k l ↔ x ∈ l ∨ x = k := by
  by_cases h : k ∈ l
  · simp only [insertKey, if_pos h]
    constructor
    · exact Or.inl
    · rintro (hx | rfl)
      · exact hx
      · exact h
  · simp [insertKey, if_neg h]

theorem nodup_insertKey (k : String) (l : List String) (h : l.Nodup) :
    (insertKey k l).Nodup := by
  by_cases hk : k ∈ l
  · simpa [insertKey, if_pos hk] using h
  · simp only [insertKey, if_neg hk]
    refine List.Nodup.append h (List.nodup_singleton k) ?_
    intro x hx hx2
    rw [List.mem_singleton] at hx2
    exact hk (hx2 ▸ hx)

theorem mem_foldl_insertKey (trace : List (Nat × String)) :
    ∀ (a : List String) (x : String),
      x ∈ trace.foldl (fun ks e => insertKey e.2 ks) a ↔
        x ∈ a ∨ x ∈ trace.map Prod.snd := by
  induction trace with
  | nil => intro a x; simp
  | cons e rest ih =>
    intro a x
    simp only [List.foldl_cons, ih, mem_insertKey, List.map_cons,
      List.mem_cons]
    tauto

theorem nodup_foldl_insertKey (trace : List (Nat × String)) :
    ∀ a : List String, a.Nodup →
      (trace.foldl (fun ks e => insertKey e.2 ks) a).Nodup := by
  induction trace with
  | nil => intro a h; simpa using h
  | cons e rest ih => intro a h; exact ih _ (nodup_insertKey _ _ h)

theorem runTrace_no_fire (rest : List (Nat × String)) :
    ∀ (s : DState) (q m : Nat), s.quiet = some q → s.maxw = some m →
      (∀ e ∈ rest, e.1 < m) →
      List.Chain' (fun a b => a.1 ≤ b.1 ∧ b.1 < a.1 + quietPeriodMs) rest →
      (∀ e ∈ rest.head?, e.1 < q) →
      ∃ d, runTrace s rest =
        [(d, rest.foldl (fun ks e => insertKey e.2 ks) s.keys)] := by
  induction rest with
  | nil =>
    intro s q m hq hm _ _ _
    exact ⟨min q m, by simp [runTrace, deadline, hq, hm]⟩
  | cons e rest ih =>
    intro s q m hq hm hlt hchain hhead
    obtain ⟨t, k⟩ := e
    have ht_q : t < q := hhead (t, k) rfl
    have ht_m : t < m := hlt (t, k) (by simp)
    have hno : ¬ min q m ≤ t := Nat.not_le.mpr (lt_min ht_q ht_m)
    have hd : deadline s = some (min q m) := by simp [deadline, hq, hm]
    rw [List.chain'_cons'] at hchain
    obtain ⟨hlink, hchain'⟩ := hchain
    obtain ⟨d, hrec⟩ := ih (ingest s t k) (t + quietPeriodMs) m
      (by simp [ingest]) (by simp [ingest, hm])
      (fun e he => hlt e (List.mem_cons_of_mem _ he)) hchain'
      (fun e he => (hlink e he).2)
    refine ⟨d, ?_⟩
    simp only [runTrace, hd, if_neg hno]
    exact hrec

end Nconfigd

namespace Nconfigd

/-- NconfigdOpts is the full record of command-line options nconfigd
defines (main.go lines 204-209): log level, ansible directory, kv address,
config path and the once flag. No option carries a debounce duration. -/
structure NconfigdOpts where
  logLevel : String
  ansibleDir : String
  kvAddr : String
  configPath : String
  once : Bool
  deriving DecidableEq, Repr

/-- quietMsOf maps parsed options to the quiet period the consumer loop
uses: consumeResponses receives no duration parameter, so the value is the
literal 100 ms regardless of the options (main.go lines 120, 135, 143). -/
def quietMsOf (_o : NconfigdOpts) : Nat := quietPeriodMs

/-- maxWaitMsOf maps parsed options to the max wait the consumer loop
uses: the literal 1 s regardless of the options (main.go lines 120, 137,
146). -/
def maxWaitMsOf (_o : NconfigdOpts) : Nat := maxWaitMs

/-- burstTrace is twelve distinct keys arriving at 99 ms gaps — every gap
is below the 100 ms quiet period, but the burst as a whole outlasts the
1 s max wait, so the max-wait timer fires mid-burst. -/
def burstTrace : List (Nat × String) :=
  [(0, "a"), (99, "b"), (198, "c"), (297, "d"), (396, "e"), (495, "f"),
   (594, "g"), (693, "h"), (792, "i"), (891, "j"), (990, "k"), (1089, "l")]

namespace Claims

/-- C1 (counterexample): a sequence of twelve distinct keys all delivered
faster than the quiet period does NOT always trigger exactly one consumer
action: on burstTrace the max-wait timer elapses mid-burst and
consumeResponses fires runAnsible twice. -/
theorem burst_exceeding_maxwait_fires_twice :
    List.Chain' (fun a b => a.1 ≤ b.1 ∧ b.1 < a.1 + quietPeriodMs)
      burstTrace ∧
    (burstTrace.map Prod.snd).Nodup ∧
    (fires burstTrace).length = 2 ∧ ¬ (fires burstTrace).length = 1 := by
  refine ⟨?_, by decide, by decide, by decide⟩
  simp only [burstTrace, List.chain'_cons, List.chain'_singleton,
    quietPeriodMs]
  norm_num

/-- C1 (amended): for a sequence of distinct keys all delivered faster
than the quiet period AND all arriving before the first event's max-wait
deadline, consumeResponses invokes runAnsible exactly once for the burst,
with a duplicate-free key set whose membership is exactly the union of the
affected keys. -/
theorem burst_within_maxwait_single_fire (t0 : Nat) (k0 : String)
    (rest : List (Nat × String))
    (_hdistinct : (((t0, k0) :: rest).map Prod.snd).Nodup)
    (hgaps : List.Chain' (fun a b => a.1 ≤ b.1 ∧ b.1 < a.1 + quietPeriodMs)
      ((t0, k0) :: rest))
    (hwindow : ∀ e ∈ rest, e.1 < t0 + maxWaitMs) :
    ∃ d ks, fires ((t0, k0) :: rest) = [(d, ks)] ∧ ks.Nodup ∧
      (∀ x, x ∈ ks ↔ x ∈ ((t0, k0) :: rest).map Prod.snd) := by
  rw [List.chain'_cons'] at hgaps
  obtain ⟨hlink, hchain⟩ := hgaps
  obtain ⟨d, hd⟩ := runTrace_no_fire rest (ingest emptyD t0 k0)
    (t0 + quietPeriodMs) (t0 + maxWaitMs) rfl rfl hwindow hchain
    (fun e he => (hlink e he).2)
  refine ⟨d, ((t0, k0) :: rest).foldl (fun ks e => insertKey e.2 ks) [],
    ?_, ?_, ?_⟩
  · exact hd
  · exact nodup_foldl_insertKey _ [] List.nodup_nil
  · intro x
    rw [mem_foldl_insertKey]
    simp

/-- Witness for C1 (amended): a three-key burst at gaps 50 ms and 70 ms
fires exactly once with the keys a, b, c. -/
theorem burst_within_maxwait_single_fire_witness :
    ∃ d ks, fires [(0, "a"), (50, "b"), (120, "c")] = [(d, ks)] ∧
      ks.Nodup ∧
      (∀ x, x ∈ ks ↔
        x ∈ ([(0, "a"), (50, "b"), (120, "c")] :
          List (Nat × String)).map Prod.snd) :=
  burst_within_maxwait_single_fire 0 "a" [(50, "b"), (120, "c")]
    (by decide)
    (by
      simp only [List.chain'_cons, List.chain'_singleton, quietPeriodMs]
      norm_num)
    (by decide)

/-- C4: the batching loop's timer discipline — the quiet timer is reset on
every incoming event; the max timer, once armed, is never reset by a
subsequent event and is armed on the first event of a new batch; a batch
fires when the earlier of the two armed deadlines elapses; on a fire the
loop emits the accumulated set and continues from the cleared state
(empty set, both timers disarmed), in which no deadline is pending until
the next event rearms via ingestion. -/
theorem debounce_timer_discipline :
    (∀ s t k, (ingest s t k).quiet = some (t + quietPeriodMs)) ∧
    (∀ s t k m, s.maxw = some m → (ingest s t k).maxw = some m) ∧
    (∀ s t k, s.maxw = none → (ingest s t k).maxw = some (t + maxWaitMs)) ∧
    (∀ s q m, s.quiet = some q → s.maxw = some m →
      deadline s = some (min q m)) ∧
    (∀ s t k rest d, deadline s = some d → d ≤ t →
      runTrace s ((t, k) :: rest) =
        (d, s.keys) :: runTrace (ingest emptyD t k) rest) ∧
    emptyD.keys = [] ∧ deadline emptyD = none := by
  refine ⟨fun s t k => rfl, fun s t k m hm => ?_, fun s t k hm => ?_,
    fun s q m hq hm => ?_, fun s t k rest d hd ht => ?_, rfl, rfl⟩
  · simp [ingest, hm]
  · simp [ingest, hm]
  · simp [deadline, hq, hm]
  · simp only [runTrace, hd, if_pos ht]

/-- Witness for C4: the discipline theorem instantiated on a concrete
state with both timers armed and an overdue deadline. -/
theorem debounce_timer_discipline_witness :
    (ingest ⟨["a"], some 5, some 7⟩ 10 "b").maxw = some 7 ∧
    (ingest ⟨["a"], some 5, none⟩ 10 "b").maxw = some (10 + maxWaitMs) ∧
    deadline ⟨["a"], some 5, some 7⟩ = some (min 5 7) ∧
    runTrace ⟨["a"], some 5, some 7⟩ [(9, "b")] =
      (min 5 7, ["a"]) :: runTrace (ingest emptyD 9 "b") [] := by
  refine ⟨debounce_timer_discipline.2.1 ⟨["a"], some 5, some 7⟩ 10 "b" 7 rfl,
    debounce_timer_discipline.2.2.1 ⟨["a"], some 5, none⟩ 10 "b" rfl,
    debounce_timer_discipline.2.2.2.1 ⟨["a"], some 5, some 7⟩ 5 7 rfl rfl,
    debounce_timer_discipline.2.2.2.2.1 ⟨["a"], some 5, some 7⟩ 9 "b" []
      (min 5 7) (debounce_timer_discipline.2.2.2.1 _ 5 7 rfl rfl)
      (by decide)⟩

/-- C6 (counterexample): the consumer's durations are not configurable —
for the default option record they are 100 ms and 1 s, and no option
record at all yields any other value, because consumeResponses hard-codes
both literals and nconfigd defines no flag carrying a duration. -/
theorem durations_not_configurable :
    quietMsOf ⟨"warn", "/var/lib/ansible", "http://127.0.0.1:4001", "",
      false⟩ = 100 ∧
    maxWaitMsOf ⟨"warn", "/var/lib/ansible", "http://127.0.0.1:4001", "",
      false⟩ = 1000 ∧
    ¬ ∃ o : NconfigdOpts, quietMsOf o ≠ 100 ∨ maxWaitMsOf o ≠ 1000 := by
  refine ⟨rfl, rfl, ?_⟩
  rintro ⟨o, h | h⟩ <;> exact h rfl

/-- C6 (amended): the debounced consumer's quiet period is 100 ms and its
max wait is 1 s; both are hard-coded constants, identical under every
option record rather than configurable. -/
theorem durations_fixed_defaults :
    quietPeriodMs = 100 ∧ maxWaitMs = 1000 ∧
    ∀ o : NconfigdOpts,
      quietMsOf o = quietPeriodMs ∧ maxWaitMsOf o = maxWaitMs :=
  ⟨rfl, rfl, fun _ => ⟨rfl, rfl⟩⟩

end Claims

end Nconfigd

namespace Graceful

/-- WorkerPhase is the consumer task's position relative to the ready
channel: `idle` between actions, `working` while it holds the token and
the consumer action runs (between `done := <-ready` and `ready <- done`). -/
inductive WorkerPhase
  | idle
  | working
  deriving DecidableEq, Repr

/-- ShutPhase is the signal-handling task's position: `running` before any
termination signal, `waiting` after `s := <-sigs` while blocked on
`<-ready`, `holding` once it has taken the token, `closed` after it has
released the resources (`w.Close()`) and exited. -/
inductive ShutPhase
  | running
  | waiting
  | holding
  | closed
  deriving DecidableEq, Repr

/-- Sys is the state of the graceful-shutdown handoff: the number of
tokens buffered in the capacity-one `ready` channel, the worker task's
phase and the shutdown handler's phase (nconfigd main.go lines 256-271 and
consumeResponses lines 160-168; the same protocol appears in dobharchu
main.go lines 178-213). -/
structure Sys where
  slot : Nat
  worker : WorkerPhase
  shut : ShutPhase
  deriving DecidableEq, Repr

/-- init is the state after `ready := make(chan struct{}, 1); ready <-
struct{}{}`: one token in the slot, worker idle, no signal yet. -/
def init : Sys := ⟨1, .idle, .running⟩

/-- workerHolds: the worker holds the token exactly while an action is in
progress. -/
def workerHolds (s : Sys) : Prop := s.worker = WorkerPhase.working

/-- shutHolds: the shutdown handler holds the token from the moment
`<-ready` returns onward (it never gives it back; it closes resources and
exits). -/
def shutHolds (s : Sys) : Prop :=
  s.shut = ShutPhase.holding ∨ s.shut = ShutPhase.closed

/-- Step is one interleaving step of the two tasks against the ready
channel. `wTake` is the worker's `done := <-ready` before it starts an
action; `wGive` is the worker's `ready <- done` when the action completes
with outcome `ok` (the channel operation is the same for success and
handled error); `sigArrive` is the delivery of a termination signal;
`sTake` is the handler's `<-ready`; `sClose` is the handler's release of
resources and exit. Channel receives require a buffered token. -/
inductive Step : Sys → Sys → Prop
  | wTake (s : Sys) :
      s.worker = WorkerPhase.idle → 1 ≤ s.slot →
      Step s ⟨s.slot - 1, .working, s.shut⟩
  | wGive (s : Sys) (ok : Bool) :
      s.worker = WorkerPhase.working →
      Step s ⟨s.slot + 1, .idle, s.shut⟩
  | sigArrive (s : Sys) :
      s.shut = ShutPhase.running →
      Step s ⟨s.slot, s.worker, .waiting⟩
  | sTake (s : Sys) :
      s.shut = ShutPhase.waiting → 1 ≤ s.slot →
      Step s ⟨s.slot - 1, s.worker, .holding⟩
  | sClose (s : Sys) :
      s.shut = ShutPhase.holding →
      Step s ⟨s.slot, s.worker, .closed⟩

/-- Reachable states of the handoff from the initial state. -/
def Reachable (s : Sys) : Prop := Relation.ReflTransGen Step init s

/-- wTok is the number of tokens the worker task holds in a phase. -/
def wTok : WorkerPhase → Nat
  | .idle => 0
  | .working => 1

/-- sTok is the number of tokens the shutdown handler has consumed in a
phase (it never returns the token once taken). -/
def sTok : ShutPhase → Nat
  | .running => 0
  | .waiting => 0
  | .holding => 1
  | .closed => 1

/-- tokenCount counts every token in the system: buffered in the channel,
held by the worker, or consumed by the shutdown handler. -/
def tokenCount (s : Sys) : Nat :=
  s.slot + wTok s.worker + sTok s.shut

/-- Inv is the conservation invariant of the capacity-one handoff: exactly
one token exists. -/
def Inv (s : Sys) : Prop := tokenCount s = 1

theorem inv_init : Inv init := rfl

theorem inv_step {s s' : Sys} (h : Inv s) (hs : Step s s') : Inv s' := by
  cases hs with
  | wTake hw hslot =>
    rw [Inv, tokenCount] at h ⊢
    rw [hw] at h
    simp only [wTok] at h ⊢
    omega
  | wGive ok hw =>
    rw [Inv, tokenCount] at h ⊢
    rw [hw] at h
    simp only [wTok] at h ⊢
    omega
  | sigArrive hsh =>
    rw [Inv, tokenCount] at h ⊢
    rw [hsh] at h
    simp only [sTok] at h ⊢
    omega
  | sTake hsh hslot =>
    rw [Inv, tokenCount] at h ⊢
    rw [hsh] at h
    simp only [sTok] at h ⊢
    omega
  | sClose hsh =>
    rw [Inv, tokenCount] at h ⊢
    rw [hsh] at h
    simp only [sTok] at h ⊢
    omega

theorem inv_reachable {s : Sys} (h : Reachable s) : Inv s := by
  induction h with
  | refl => exact inv_init
  | tail _ hstep ih => exact inv_step ih hstep

end Graceful

namespace Graceful

/-- sampleWorking is the handoff state right after the worker takes the
token: empty slot, action in progress, no signal yet. -/
def sampleWorking : Sys := ⟨0, .working, .running⟩

theorem reachable_sampleWorking : Reachable sampleWorking := by
  exact Relation.ReflTransGen.single (Step.wTake init rfl (Nat.le_refl 1))

namespace Claims

/-- C3: in every reachable state of the graceful-shutdown handoff, the
capacity-one token is never held by the worker and the shutdown handler
simultaneously, and while the worker holds it (an action is in flight) no
step lets the shutdown handler acquire it — shutdown proceeds only once
the token is back in the slot. -/
theorem slot_never_double_held (s : Sys) (h : Reachable s) :
    ¬ (workerHolds s ∧ shutHolds s) ∧
    (workerHolds s → ∀ s', Step s s' →
      ¬ (s.shut = ShutPhase.waiting ∧ s'.shut = ShutPhase.holding)) := by
  have hinv := inv_reachable h
  constructor
  · rintro ⟨hw, hsh⟩
    rw [Inv, tokenCount] at hinv
    rw [workerHolds] at hw
    rw [hw] at hinv
    rcases hsh with h1 | h1 <;> rw [h1] at hinv <;>
      simp [wTok, sTok] at hinv
  · intro hw s' hstep
    rintro ⟨hwait, hhold⟩
    rw [workerHolds] at hw
    have hslot0 : s.slot = 0 := by
      rw [Inv, tokenCount, hw] at hinv
      simp only [wTok] at hinv
      omega
    cases hstep with
    | wTake hw' hslot => rw [hw] at hw'; simp at hw'
    | wGive ok hw' => rw [hwait] at hhold; simp at hhold
    | sigArrive hsh => rw [hwait] at hsh; simp at hsh
    | sTake hsh hslot => omega
    | sClose hsh => rw [hwait] at hsh; simp at hsh

/-- Witness for C3: the theorem applied to the reachable state in which
the worker holds the token mid-action. -/
theorem slot_never_double_held_witness :
    ¬ (workerHolds sampleWorking ∧ shutHolds sampleWorking) ∧
    (workerHolds sampleWorking → ∀ s', Step sampleWorking s' →
      ¬ (sampleWorking.shut = ShutPhase.waiting ∧
         s'.shut = ShutPhase.holding)) :=
  slot_never_double_held sampleWorking reachable_sampleWorking

/-- C5: in every reachable handoff state, a worker step that starts an
action (idle to working) removes one token from the slot, and a worker
step that completes an action (working to idle, whatever the outcome
carried by the step) returns it, leaving exactly one token buffered in
the slot after each completed action. -/
theorem worker_token_roundtrip (s s' : Sys) (h : Reachable s) :
    (Step s s' → s.worker = WorkerPhase.idle →
      s'.worker = WorkerPhase.working → s'.slot + 1 = s.slot) ∧
    (Step s s' → s.worker = WorkerPhase.working →
      s'.worker = WorkerPhase.idle →
      s'.slot = s.slot + 1 ∧ s'.slot = 1) := by
  have hinv := inv_reachable h
  constructor
  · intro hstep hidle hworking
    cases hstep with
    | wTake hw hslot => simp; omega
    | wGive ok hw => simp at hworking
    | sigArrive hsh => rw [hidle] at hworking; simp at hworking
    | sTake hsh hslot => rw [hidle] at hworking; simp at hworking
    | sClose hsh => rw [hidle] at hworking; simp at hworking
  · intro hstep hworking hidle
    cases hstep with
    | wTake hw hslot => rw [hworking] at hw; simp at hw
    | wGive ok hw =>
      refine ⟨rfl, ?_⟩
      rw [Inv, tokenCount, hworking] at hinv
      simp only [wTok] at hinv
      simp
      omega
    | sigArrive hsh => rw [hworking] at hidle; simp at hidle
    | sTake hsh hslot => rw [hworking] at hidle; simp at hidle
    | sClose hsh => rw [hworking] at hidle; simp at hidle

/-- Witness for C5: the completion step out of the mid-action state
returns the token, leaving one token in the slot. -/
theorem worker_token_roundtrip_witness :
    (⟨1, WorkerPhase.idle, ShutPhase.running⟩ : Sys).slot =
        sampleWorking.slot + 1 ∧
    (⟨1, WorkerPhase.idle, ShutPhase.running⟩ : Sys).slot = 1 :=
  (worker_token_roundtrip sampleWorking
      ⟨1, WorkerPhase.idle, ShutPhase.running⟩
      reachable_sampleWorking).2
    (Step.wGive sampleWorking true rfl) rfl rfl

end Claims

end Graceful

namespace Dobharchu

/-- IntegrateResult is the outcome of `f.IntegrateResponse` on a watch
event: success carrying whether a config refresh is needed, or an
integration error (the lossy-resync aftermath). -/
inductive IntegrateResult
  | ok (refresh : Bool)
  | err
  deriving DecidableEq, Repr

/-- LoopEffects records what one iteration of dobharchu's watch loop does:
whether it re-fetched all authoritative state (`f.FetchAll`), whether it
regenerated the config files (`updateConfigs`), and whether it exited the
process. -/
structure LoopEffects where
  fetchedAll : Bool
  updatedConfigs : Bool
  exited : Bool
  deriving DecidableEq, Repr

/-- loopBody embeds the body of dobharchu's watch loop (main.go lines
181-201): integrate the event; on an integration error, re-fetch all
domain state — exiting with status 1 if even that fails — and force
`refresh = true`; regenerate the config files whenever refresh is set. -/
def loopBody (ir : IntegrateResult) (fetchAllOk : Bool) : LoopEffects :=
  match ir with
  | .ok refresh => ⟨false, refresh, false⟩
  | .err =>
    if fetchAllOk then ⟨true, true, false⟩ else ⟨true, false, true⟩

/-- MainStmt enumerates the top-level statements of dobharchu's main in
source order (main.go lines 116-215). -/
inductive MainStmt
  | parseFlags
  | setupLogging
  | fetchInitial
  | updateInitial
  | createWatcher
  | addPrefixes
  | initReady
  | watchLoop
  | notifySignals
  | awaitSignal
  | awaitReady
  | closeWatcher
  deriving DecidableEq, Repr

/-- mainOrder is the statement sequence of dobharchu's main in source
order: the watch loop (lines 181-201) precedes the signal registration
`signal.Notify(sigs, os.Interrupt, syscall.SIGTERM)` (lines 207-208). -/
def mainOrder : List MainStmt :=
  [.parseFlags, .setupLogging, .fetchInitial, .updateInitial,
   .createWatcher, .addPrefixes, .initReady, .watchLoop, .notifySignals,
   .awaitSignal, .awaitReady, .closeWatcher]

/-- stmtIndex is a statement's position in main's source order. -/
def stmtIndex (p : MainStmt) : Nat := mainOrder.indexOf p

/-- handlerInstalledDuring: a termination signal delivered while `p`
executes is relayed to the `sigs` channel only if `signal.Notify` has
already run, i.e. only when `notifySignals` precedes `p` in program
order. -/
def handlerInstalledDuring (p : MainStmt) : Bool :=
  stmtIndex MainStmt.notifySignals < stmtIndex p

/-- SigOutcome is the fate of the process when a termination signal is
delivered. -/
inductive SigOutcome
  | graceful
  | killed
  deriving DecidableEq, Repr

/-- signalOutcome: with the handler installed, the signal is read from the
`sigs` channel and shutdown waits on the ready slot; without it, the Go
runtime's default disposition for interrupt/SIGTERM terminates the
process immediately, mid-action and without releasing resources. -/
def signalOutcome (p : MainStmt) : SigOutcome :=
  if handlerInstalledDuring p then .graceful else .killed

namespace Claims

/-- C2 (code bug): dobharchu registers its termination-signal handler only
after the watch loop exits, so a signal delivered while the loop processes
an action is not handled at all — the runtime default kills the process
immediately, without letting the action finish or closing the watcher.
The comments in main.go (lines 176-177, 206) state the ready channel
coordinates clean exiting between the consumer and the signal handler,
which the statement order contradicts. -/
theorem signal_during_loop_kills :
    handlerInstalledDuring MainStmt.watchLoop = false ∧
    signalOutcome MainStmt.watchLoop = SigOutcome.killed ∧
    handlerInstalledDuring MainStmt.awaitSignal = true ∧
    signalOutcome MainStmt.awaitSignal = SigOutcome.graceful := by
  decide

/-- C8: whenever integrating a watch event into cached state fails, the
loop body re-fetches all authoritative domain state; if the re-fetch
succeeds it forces a full config regeneration, and if even the re-fetch
fails the process exits rather than trusting stale state. -/
theorem integrate_failure_refetches (ir : IntegrateResult)
    (fetchAllOk : Bool) (herr : ir = IntegrateResult.err) :
    (loopBody ir fetchAllOk).fetchedAll = true ∧
    (fetchAllOk = true → (loopBody ir fetchAllOk).updatedConfigs = true) ∧
    (fetchAllOk = false → (loopBody ir fetchAllOk).exited = true) := by
  subst herr
  cases fetchAllOk <;> simp [loopBody]

/-- Witness for C8: the failure branch evaluated with a successful
re-fetch. -/
theorem integrate_failure_refetches_witness :
    (loopBody IntegrateResult.err true).fetchedAll = true ∧
    (true = true → (loopBody IntegrateResult.err true).updatedConfigs =
      true) ∧
    (true = false → (loopBody IntegrateResult.err true).exited = true) :=
  integrate_failure_refetches IntegrateResult.err true rfl

end Claims

end Dobharchu
